import Mathlib

/-!
Verification of the rock-paper-scissors arena application
(single source file src/App.tsx).

The embedding follows the source closely:

- TypeScript type Choice = rock | paper | scissors | null becomes
  Option Choice; Result = win | lose | draw | null becomes Option Result.
- getResult (App.tsx lines 11-22) is embedded as the function getResult.
- The React state of App (App.tsx lines 415-421) becomes the structure
  AppState: playerChoice, computerChoice, result, score, isAnimating.
  The hoveredChoice state is purely cosmetic (hover highlight) and is
  omitted since no claim mentions it.
- handleChoice (lines 423-443) splits in time into a synchronous part
  (the guard, setIsAnimating, setPlayerChoice) and a deferred part run
  by the 800 ms timeout (opponent pick, result, score update).  These
  are embedded as handleChoice and revealStep.  The timeout closure
  captures the selected choice; revealStep takes it as an argument.
- resetGame (lines 445-449) becomes resetGame.
- The opponent pick CHOICES[Math.floor(Math.random() * 3)] (line 431)
  is embedded with the random draw r of Math.random, a rational in
  [0, 1), as an explicit input: compIndex and opponentPick.
- The victory particle frame update (VictoryParticles, lines 257-273)
  becomes updateParticle / frameUpdate, with the Math.random calls of
  the respawn branch passed as explicit inputs.
-/

namespace RPS

/-- The three concrete choices; the TypeScript Choice type is
Option Choice (null becomes none). -/
inductive Choice where
  | rock
  | paper
  | scissors
deriving DecidableEq, Repr

/-- The three concrete results; the TypeScript Result type is
Option Result (null becomes none). -/
inductive Result where
  | win
  | lose
  | draw
deriving DecidableEq, Repr

/-- App.tsx line 9: const CHOICES: Choice[] = ['rock', 'paper', 'scissors'].
The element type of the TypeScript array is the nullable Choice, hence
List (Option Choice); out-of-bounds indexing in JavaScript yields
undefined, which like null is falsy, modelled by the default none in
List.getD. -/
def CHOICES : List (Option Choice) := [some .rock, some .paper, some .scissors]

/-- App.tsx lines 11-22: the round resolver. -/
def getResult (player computer : Option Choice) : Option Result :=
  if player.isNone || computer.isNone then none
  else if player == computer then some .draw
  else if (player == some .rock && computer == some .scissors)
       || (player == some .paper && computer == some .rock)
       || (player == some .scissors && computer == some .paper) then some .win
  else some .lose

/-- App.tsx line 419: the score record. -/
structure Score where
  wins : Nat
  losses : Nat
  draws : Nat
deriving DecidableEq, Repr

/-- The React state of App (App.tsx lines 416-421), without the cosmetic
hoveredChoice. -/
structure AppState where
  playerChoice : Option Choice
  computerChoice : Option Choice
  result : Option Result
  score : Score
  isAnimating : Bool
deriving DecidableEq, Repr

/-- App.tsx lines 416-421: every useState starts at null / zero / false. -/
def initialState : AppState :=
  { playerChoice := none
    computerChoice := none
    result := none
    score := { wins := 0, losses := 0, draws := 0 }
    isAnimating := false }

/-- App.tsx lines 423-427: the synchronous part of handleChoice.  The
guard returns unchanged when isAnimating or the choice is null;
otherwise it sets isAnimating and playerChoice.  The deferred timeout
body is revealStep. -/
def handleChoice (s : AppState) (choice : Option Choice) : AppState :=
  if s.isAnimating || choice.isNone then s
  else { s with isAnimating := true, playerChoice := choice }

/-- App.tsx lines 430-442: the body of the 800 ms timeout inside
handleChoice.  choice is the value captured by the closure; idx is
Math.floor(Math.random() * 3).  It sets the computer choice, the
result, updates exactly one score counter (the else branch of line 439
increments draws), and clears isAnimating. -/
def revealStep (s : AppState) (choice : Option Choice) (idx : Nat) : AppState :=
  let compChoice := CHOICES.getD idx none
  let gameResult := getResult choice compChoice
  let score :=
    if gameResult == some .win then { s.score with wins := s.score.wins + 1 }
    else if gameResult == some .lose then { s.score with losses := s.score.losses + 1 }
    else { s.score with draws := s.score.draws + 1 }
  { s with computerChoice := compChoice
           result := gameResult
           score := score
           isAnimating := false }

/-- App.tsx lines 445-449: resetGame clears the two choices and the
result; it touches neither the score nor isAnimating. -/
def resetGame (s : AppState) : AppState :=
  { s with playerChoice := none, computerChoice := none, result := none }

/-- App.tsx line 431: Math.floor(Math.random() * 3) with the draw r of
Math.random, a value in [0, 1), as explicit input. -/
def compIndex (r : ℚ) : Nat := (Int.floor (3 * r)).toNat

/-- App.tsx line 431: the opponent pick CHOICES[Math.floor(Math.random() * 3)]
as a function of the random draw alone. -/
def opponentPick (r : ℚ) : Option Choice := CHOICES.getD (compIndex r) none

/-- States of the round controller of the spec.  Idle: no choices, no
result, no pending timer. -/
def isIdle (s : AppState) : Prop :=
  s.playerChoice = none ∧ s.computerChoice = none ∧ s.result = none ∧ s.isAnimating = false

/-- AwaitingReveal: the 800 ms timer is pending, which is exactly when
isAnimating holds. -/
def isAwaitingReveal (s : AppState) : Prop := s.isAnimating = true

/-- Resolved: a result is displayed and no timer is pending. -/
def isResolved (s : AppState) : Prop := s.result ≠ none ∧ s.isAnimating = false

/-- The states reachable through the interaction surface of the app.

- select: clicking a choice shape.  Scene (App.tsx line 346) renders the
  clickable shapes only while playerChoice is null, so a click delivers
  handleChoice only in such states, always with a concrete choice.
- reveal: the timeout of handleChoice fires.  A timer is pending exactly
  while isAnimating; nothing between selection and firing changes
  playerChoice, so the captured choice equals s.playerChoice.  The index
  Math.floor(Math.random() * 3) is below 3 since Math.random is in [0, 1).
- reset: clicking PLAY AGAIN.  The button is rendered only while result
  is non-null (App.tsx line 524). -/
inductive Reachable : AppState → Prop where
  | init : Reachable initialState
  | select (s : AppState) (c : Choice) : Reachable s → s.playerChoice = none →
      Reachable (handleChoice s (some c))
  | reveal (s : AppState) (idx : Nat) : Reachable s → s.isAnimating = true →
      idx < 3 → Reachable (revealStep s s.playerChoice idx)
  | reset (s : AppState) : Reachable s → s.result ≠ none → Reachable (resetGame s)

/-- The inductive invariant of the round controller: while a timer is
pending the player choice is set and the round is not yet resolved;
before selection nothing else is set; and the result is present exactly
when both choices are. -/
def Inv (s : AppState) : Prop :=
  (s.isAnimating = true → s.playerChoice ≠ none ∧ s.computerChoice = none ∧ s.result = none)
  ∧ (s.playerChoice = none → s.computerChoice = none ∧ s.result = none)
  ∧ (s.result ≠ none ↔ s.playerChoice ≠ none ∧ s.computerChoice ≠ none)

lemma getResult_some_isSome (p c : Choice) :
    (getResult (some p) (some c)).isSome := by
  cases p <;> cases c <;> rfl

lemma inv_initial : Inv initialState := by
  refine ⟨?_, ?_, ?_⟩ <;> simp [initialState, Inv]

lemma inv_reachable {s : AppState} (h : Reachable s) : Inv s := by
  induction h with
  | init => exact inv_initial
  | select s c _ hpc ih =>
      obtain ⟨h1, h2, h3⟩ := ih
      have hanim : s.isAnimating = false := by
        by_contra hne
        have : s.isAnimating = true := by
          cases hb : s.isAnimating
          · exact absurd hb hne
          · rfl
        exact (h1 this).1 hpc
      obtain ⟨hcc, hres⟩ := h2 hpc
      simp only [handleChoice, hanim, Option.isNone_some, Bool.or_self]
      refine ⟨?_, ?_, ?_⟩ <;> simp [hcc, hres]
  | reveal s idx _ hanim hidx ih =>
      obtain ⟨h1, _h2, _h3⟩ := ih
      obtain ⟨hpc, _hcc, _hres⟩ := h1 hanim
      obtain ⟨p, hp⟩ := Option.ne_none_iff_exists.mp hpc
      interval_cases idx <;> cases p <;>
        refine ⟨?_, ?_, ?_⟩ <;>
          simp [revealStep, CHOICES, ← hp, getResult]
  | reset s _ hres ih =>
      obtain ⟨h1, _h2, _h3⟩ := ih
      have hanim : s.isAnimating = false := by
        cases hb : s.isAnimating
        · rfl
        · exact absurd (h1 hb).2.2 hres
      refine ⟨?_, ?_, ?_⟩ <;> simp [resetGame, hanim]

lemma revealStep_playerChoice (s : AppState) (choice : Option Choice) (idx : Nat) :
    (revealStep s choice idx).playerChoice = s.playerChoice := rfl

lemma revealStep_computerChoice (s : AppState) (choice : Option Choice) (idx : Nat) :
    (revealStep s choice idx).computerChoice = CHOICES.getD idx none := rfl

lemma revealStep_result (s : AppState) (choice : Option Choice) (idx : Nat) :
    (revealStep s choice idx).result = getResult choice (CHOICES.getD idx none) := rfl

lemma revealStep_score_eq (s : AppState) (choice : Option Choice) (idx : Nat) :
    (revealStep s choice idx).score =
      match getResult choice (CHOICES.getD idx none) with
      | some .win => { s.score with wins := s.score.wins + 1 }
      | some .lose => { s.score with losses := s.score.losses + 1 }
      | _ => { s.score with draws := s.score.draws + 1 } := by
  simp only [revealStep]
  generalize getResult choice (CHOICES.getD idx none) = g
  rcases g with _ | r
  · rfl
  · cases r <;> rfl

lemma handleChoice_score (s : AppState) (c : Option Choice) :
    (handleChoice s c).score = s.score := by
  unfold handleChoice
  split <;> rfl

/-- C1: the resolver getResult satisfies the fixed cyclic dominance table
on all nine pairs of concrete choices: equal choices draw, rock beats
scissors, paper beats rock, scissors beats paper, and the mirrored pairs
lose. -/
theorem rps_c1_resolver_table :
    (∀ a : Choice, getResult (some a) (some a) = some Result.draw)
    ∧ getResult (some .rock) (some .scissors) = some .win
    ∧ getResult (some .scissors) (some .rock) = some .lose
    ∧ getResult (some .paper) (some .rock) = some .win
    ∧ getResult (some .rock) (some .paper) = some .lose
    ∧ getResult (some .scissors) (some .paper) = some .win
    ∧ getResult (some .paper) (some .scissors) = some .lose := by
  refine ⟨fun a => ?_, by decide, by decide, by decide, by decide, by decide, by decide⟩
  cases a <;> decide

/-- C5: the resolver short-circuits to none whenever either input is
absent: getResult none x = none and getResult x none = none for every x,
including x = none. -/
theorem rps_c5_null_short_circuit :
    ∀ x : Option Choice, getResult none x = none ∧ getResult x none = none := by
  intro x
  cases x <;> exact ⟨rfl, rfl⟩

/-- C6: resetGame, applied in a Resolved state, yields an Idle state:
player choice, computer choice and result are all cleared to none, and
the score record is unchanged. -/
theorem rps_c6_reset_clears (s : AppState) (h : isResolved s) :
    isIdle (resetGame s)
    ∧ (resetGame s).playerChoice = none
    ∧ (resetGame s).computerChoice = none
    ∧ (resetGame s).result = none
    ∧ (resetGame s).score = s.score := by
  obtain ⟨_, hanim⟩ := h
  exact ⟨⟨rfl, rfl, rfl, hanim⟩, rfl, rfl, rfl, rfl⟩

/-- C7: the score counters are Nat-valued hence non-negative; no
operation decreases any counter; selection and reset leave the score
untouched; a reveal increments the three counters by exactly one in
total, so each completed round adds at most one to each counter and
never resets one to zero. -/
theorem rps_c7_score_monotone (s : AppState) (c choice : Option Choice) (idx : Nat) :
    0 ≤ s.score.wins ∧ 0 ≤ s.score.losses ∧ 0 ≤ s.score.draws
    ∧ (handleChoice s c).score = s.score
    ∧ (resetGame s).score = s.score
    ∧ s.score.wins ≤ (revealStep s choice idx).score.wins
    ∧ (revealStep s choice idx).score.wins ≤ s.score.wins + 1
    ∧ s.score.losses ≤ (revealStep s choice idx).score.losses
    ∧ (revealStep s choice idx).score.losses ≤ s.score.losses + 1
    ∧ s.score.draws ≤ (revealStep s choice idx).score.draws
    ∧ (revealStep s choice idx).score.draws ≤ s.score.draws + 1
    ∧ (revealStep s choice idx).score.wins + (revealStep s choice idx).score.losses
        + (revealStep s choice idx).score.draws
      = s.score.wins + s.score.losses + s.score.draws + 1 := by
  refine ⟨Nat.zero_le _, Nat.zero_le _, Nat.zero_le _, handleChoice_score s c, rfl, ?_⟩
  rw [revealStep_score_eq]
  rcases getResult choice (CHOICES.getD idx none) with _ | r
  · simp; omega
  · cases r <;> simp <;> omega

/-- The state after the player selects rock in the initial state. -/
def stateAfterSelect : AppState := handleChoice initialState (some .rock)

/-- The resolved state after the reveal fires from stateAfterSelect with
index 2, an opponent scissors and hence a player win. -/
def stateResolved : AppState :=
  revealStep stateAfterSelect stateAfterSelect.playerChoice 2

lemma reachable_stateAfterSelect : Reachable stateAfterSelect :=
  Reachable.select initialState .rock Reachable.init rfl

lemma reachable_stateResolved : Reachable stateResolved :=
  Reachable.reveal stateAfterSelect 2 reachable_stateAfterSelect rfl (by decide)

/-- Witness for C6: resetting the concrete resolved state rock-versus-
scissors clears the round and keeps the score. -/
theorem rps_c6_reset_clears_witness :
    isResolved stateResolved
    ∧ (isIdle (resetGame stateResolved)
       ∧ (resetGame stateResolved).playerChoice = none
       ∧ (resetGame stateResolved).computerChoice = none
       ∧ (resetGame stateResolved).result = none
       ∧ (resetGame stateResolved).score = stateResolved.score) :=
  ⟨⟨by decide, rfl⟩, rps_c6_reset_clears stateResolved ⟨by decide, rfl⟩⟩

/-- C2 counterexample: stateResolved is a reachable Resolved state, yet
invoking the selection handler there with paper overwrites the player
choice from rock to paper.  The guard of handleChoice (App.tsx line 424)
only checks isAnimating, which is false once the round has resolved, so
selection input is not ignored in the Resolved state at the handler
level. -/
theorem rps_c2_selection_cex :
    Reachable stateResolved ∧ isResolved stateResolved
    ∧ stateResolved.playerChoice = some .rock
    ∧ (handleChoice stateResolved (some .paper)).playerChoice = some .paper :=
  ⟨reachable_stateResolved, ⟨by decide, rfl⟩, by decide, by decide⟩

/-- C2 (amended): while the controller is in AwaitingReveal the selection
handler leaves the whole state, in particular the player choice,
unchanged; and in every reachable Resolved state the player choice is
non-none, so the app, which attaches selection handlers to the choice
shapes only while the player choice is none (App.tsx line 346), delivers
no selection input in the Resolved state.  Direct handler invocation in
Resolved would however overwrite the player choice, since the guard only
checks the animating flag. -/
theorem rps_c2_selection_guard (s : AppState) (c : Option Choice)
    (h : Reachable s) :
    (isAwaitingReveal s → handleChoice s c = s)
    ∧ (isResolved s → s.playerChoice ≠ none) := by
  obtain ⟨h1, _h2, h3⟩ := inv_reachable h
  constructor
  · intro ha
    unfold handleChoice
    rw [isAwaitingReveal] at ha
    simp [ha]
  · intro hres
    exact (h3.mp hres.1).1

/-- Witness for the amended C2 at the concrete AwaitingReveal state
reached by selecting rock. -/
theorem rps_c2_selection_guard_witness :
    Reachable stateAfterSelect
    ∧ ((isAwaitingReveal stateAfterSelect →
          handleChoice stateAfterSelect (some .paper) = stateAfterSelect)
       ∧ (isResolved stateAfterSelect → stateAfterSelect.playerChoice ≠ none)) :=
  ⟨reachable_stateAfterSelect,
   rps_c2_selection_guard stateAfterSelect (some .paper) reachable_stateAfterSelect⟩

/-- C4: in every reachable state the result is non-none exactly when both
choices are non-none; while the reveal timer is pending the opponent
choice is still none, so the reveal sets it at most once per round; and
the synchronous selection handler never modifies the opponent choice, so
once set it stays fixed until reset clears it. -/
theorem rps_c4_result_iff_choices (s : AppState) (h : Reachable s) :
    (s.result ≠ none ↔ s.playerChoice ≠ none ∧ s.computerChoice ≠ none)
    ∧ (isAwaitingReveal s → s.computerChoice = none)
    ∧ (∀ c : Option Choice, (handleChoice s c).computerChoice = s.computerChoice) := by
  obtain ⟨h1, _h2, h3⟩ := inv_reachable h
  refine ⟨h3, fun ha => (h1 ha).2.1, fun c => ?_⟩
  unfold handleChoice
  split <;> rfl

/-- Witness for C4 at the concrete resolved state rock-versus-scissors. -/
theorem rps_c4_result_iff_choices_witness :
    Reachable stateResolved
    ∧ (stateResolved.result ≠ none ↔
        stateResolved.playerChoice ≠ none ∧ stateResolved.computerChoice ≠ none)
    ∧ (isAwaitingReveal stateResolved → stateResolved.computerChoice = none)
    ∧ (handleChoice stateResolved (some .paper)).computerChoice
        = stateResolved.computerChoice :=
  ⟨reachable_stateResolved,
   (rps_c4_result_iff_choices stateResolved reachable_stateResolved).1,
   (rps_c4_result_iff_choices stateResolved reachable_stateResolved).2.1,
   (rps_c4_result_iff_choices stateResolved reachable_stateResolved).2.2 (some .paper)⟩

/-- C3: when the reveal fires from a reachable AwaitingReveal state with
an in-range random index, the new result is non-none and equals the
resolver applied to the round's player and opponent choices, and exactly
the score counter matching that result is incremented by one while the
other two counters are unchanged. -/
theorem rps_c3_score_increment (s : AppState) (idx : Nat)
    (h : Reachable s) (ha : s.isAnimating = true) (hidx : idx < 3) :
    (revealStep s s.playerChoice idx).result ≠ none
    ∧ (revealStep s s.playerChoice idx).result
        = getResult s.playerChoice (revealStep s s.playerChoice idx).computerChoice
    ∧ ((revealStep s s.playerChoice idx).result = some .win →
        (revealStep s s.playerChoice idx).score.wins = s.score.wins + 1
        ∧ (revealStep s s.playerChoice idx).score.losses = s.score.losses
        ∧ (revealStep s s.playerChoice idx).score.draws = s.score.draws)
    ∧ ((revealStep s s.playerChoice idx).result = some .lose →
        (revealStep s s.playerChoice idx).score.wins = s.score.wins
        ∧ (revealStep s s.playerChoice idx).score.losses = s.score.losses + 1
        ∧ (revealStep s s.playerChoice idx).score.draws = s.score.draws)
    ∧ ((revealStep s s.playerChoice idx).result = some .draw →
        (revealStep s s.playerChoice idx).score.wins = s.score.wins
        ∧ (revealStep s s.playerChoice idx).score.losses = s.score.losses
        ∧ (revealStep s s.playerChoice idx).score.draws = s.score.draws + 1) := by
  obtain ⟨h1, _h2, _h3⟩ := inv_reachable h
  obtain ⟨hpc, _, _⟩ := h1 ha
  obtain ⟨p, hp⟩ := Option.ne_none_iff_exists.mp hpc
  obtain ⟨cc, hc⟩ : ∃ cc : Choice, CHOICES.getD idx none = some cc := by
    interval_cases idx <;> exact ⟨_, rfl⟩
  obtain ⟨r, hr⟩ : ∃ r : Result,
      getResult s.playerChoice (CHOICES.getD idx none) = some r := by
    rw [← hp, hc]
    cases p <;> cases cc <;> exact ⟨_, rfl⟩
  refine ⟨?_, ?_, ?_, ?_, ?_⟩
  · rw [revealStep_result, hr]
    exact Option.some_ne_none r
  · rw [revealStep_result, revealStep_computerChoice]
  all_goals intro hw
  all_goals rw [revealStep_result, hr] at hw
  all_goals rw [revealStep_score_eq, hr]
  all_goals injection hw with hw
  all_goals subst hw
  all_goals exact ⟨rfl, rfl, rfl⟩

/-- Witness for C3 at the concrete AwaitingReveal state reached by
selecting rock, revealed with index 2 (opponent scissors, a win). -/
theorem rps_c3_score_increment_witness :
    Reachable stateAfterSelect ∧ stateAfterSelect.isAnimating = true ∧ 2 < 3
    ∧ ((revealStep stateAfterSelect stateAfterSelect.playerChoice 2).result ≠ none
       ∧ (revealStep stateAfterSelect stateAfterSelect.playerChoice 2).result
           = getResult stateAfterSelect.playerChoice
               (revealStep stateAfterSelect stateAfterSelect.playerChoice 2).computerChoice
       ∧ ((revealStep stateAfterSelect stateAfterSelect.playerChoice 2).result = some .win →
           (revealStep stateAfterSelect stateAfterSelect.playerChoice 2).score.wins
             = stateAfterSelect.score.wins + 1
           ∧ (revealStep stateAfterSelect stateAfterSelect.playerChoice 2).score.losses
               = stateAfterSelect.score.losses
           ∧ (revealStep stateAfterSelect stateAfterSelect.playerChoice 2).score.draws
               = stateAfterSelect.score.draws)
       ∧ ((revealStep stateAfterSelect stateAfterSelect.playerChoice 2).result = some .lose →
           (revealStep stateAfterSelect stateAfterSelect.playerChoice 2).score.wins
             = stateAfterSelect.score.wins
           ∧ (revealStep stateAfterSelect stateAfterSelect.playerChoice 2).score.losses
               = stateAfterSelect.score.losses + 1
           ∧ (revealStep stateAfterSelect stateAfterSelect.playerChoice 2).score.draws
               = stateAfterSelect.score.draws)
       ∧ ((revealStep stateAfterSelect stateAfterSelect.playerChoice 2).result = some .draw →
           (revealStep stateAfterSelect stateAfterSelect.playerChoice 2).score.wins
             = stateAfterSelect.score.wins
           ∧ (revealStep stateAfterSelect stateAfterSelect.playerChoice 2).score.losses
               = stateAfterSelect.score.losses
           ∧ (revealStep stateAfterSelect stateAfterSelect.playerChoice 2).score.draws
               = stateAfterSelect.score.draws + 1)) :=
  ⟨reachable_stateAfterSelect, rfl, by decide,
   rps_c3_score_increment stateAfterSelect 2 reachable_stateAfterSelect rfl (by decide)⟩

lemma compIndex_lt_three (r : ℚ) (h0 : 0 ≤ r) (h1 : r < 1) : compIndex r < 3 := by
  unfold compIndex
  have hlt : Int.floor (3 * r) < 3 := by
    rw [Int.floor_lt]
    push_cast
    linarith
  have hge : 0 ≤ Int.floor (3 * r) := Int.floor_nonneg.mpr (by linarith)
  omega

lemma compIndex_eq_zero (r : ℚ) (h0 : 0 ≤ r) (h1 : r < 1 / 3) : compIndex r = 0 := by
  unfold compIndex
  have h : Int.floor (3 * r) = 0 := by
    rw [Int.floor_eq_zero_iff, Set.mem_Ico]
    constructor <;> linarith
  rw [h]
  rfl

lemma compIndex_eq_one (r : ℚ) (h0 : 1 / 3 ≤ r) (h1 : r < 2 / 3) : compIndex r = 1 := by
  unfold compIndex
  have h : Int.floor (3 * r) = 1 := by
    rw [Int.floor_eq_iff]
    push_cast
    constructor <;> linarith
  rw [h]
  rfl

lemma compIndex_eq_two (r : ℚ) (h0 : 2 / 3 ≤ r) (h1 : r < 1) : compIndex r = 2 := by
  unfold compIndex
  have h : Int.floor (3 * r) = 2 := by
    rw [Int.floor_eq_iff]
    push_cast
    constructor <;> linarith
  rw [h]
  rfl

lemma opponentPick_cases (r : ℚ) (h0 : 0 ≤ r) (h1 : r < 1) :
    opponentPick r = if r < 1 / 3 then some Choice.rock
      else if r < 2 / 3 then some Choice.paper else some Choice.scissors := by
  unfold opponentPick
  rcases lt_or_le r (1 / 3) with ha | ha
  · rw [compIndex_eq_zero r h0 ha, if_pos ha]
    rfl
  · rcases lt_or_le r (2 / 3) with hb | hb
    · rw [compIndex_eq_one r ha hb, if_neg (not_lt.mpr ha), if_pos hb]
      rfl
    · rw [compIndex_eq_two r hb h1, if_neg (not_lt.mpr ha), if_neg (not_lt.mpr hb)]
      rfl

/-- C8: with the draw r of Math.random in [0, 1) explicit, the opponent
pick is CHOICES[floor(3r)]: rock exactly on [0, 1/3), paper exactly on
[1/3, 2/3), scissors exactly on [2/3, 1), three intervals of equal
length 1/3; and the pick computed inside the reveal is opponentPick r
for every prior state, so it depends on r alone. -/
theorem rps_c8_uniform_pick (r : ℚ) (h0 : 0 ≤ r) (h1 : r < 1) :
    (opponentPick r = some .rock ↔ 0 ≤ r ∧ r < 1 / 3)
    ∧ (opponentPick r = some .paper ↔ 1 / 3 ≤ r ∧ r < 2 / 3)
    ∧ (opponentPick r = some .scissors ↔ 2 / 3 ≤ r ∧ r < 1)
    ∧ ((1 : ℚ) / 3 - 0 = 1 / 3 ∧ (2 : ℚ) / 3 - 1 / 3 = 1 / 3 ∧ (1 : ℚ) - 2 / 3 = 1 / 3)
    ∧ (∀ s : AppState, ∀ choice : Option Choice,
        (revealStep s choice (compIndex r)).computerChoice = opponentPick r) := by
  have hcase := opponentPick_cases r h0 h1
  refine ⟨?_, ?_, ?_, ⟨by norm_num, by norm_num, by norm_num⟩, fun s choice => rfl⟩
  all_goals (rw [hcase]; split_ifs with ha hb <;> simp_all <;> linarith)

/-- Witness for C8 at the concrete draw r = 1/2, which picks paper. -/
theorem rps_c8_uniform_pick_witness :
    (0 : ℚ) ≤ 1 / 2 ∧ (1 : ℚ) / 2 < 1
    ∧ ((opponentPick (1 / 2) = some .rock ↔ (0 : ℚ) ≤ 1 / 2 ∧ (1 : ℚ) / 2 < 1 / 3)
       ∧ (opponentPick (1 / 2) = some .paper ↔ (1 : ℚ) / 3 ≤ 1 / 2 ∧ (1 : ℚ) / 2 < 2 / 3)
       ∧ (opponentPick (1 / 2) = some .scissors ↔ (2 : ℚ) / 3 ≤ 1 / 2 ∧ (1 : ℚ) / 2 < 1)
       ∧ ((1 : ℚ) / 3 - 0 = 1 / 3 ∧ (2 : ℚ) / 3 - 1 / 3 = 1 / 3 ∧ (1 : ℚ) - 2 / 3 = 1 / 3)
       ∧ (∀ s : AppState, ∀ choice : Option Choice,
           (revealStep s choice (compIndex (1 / 2))).computerChoice
             = opponentPick (1 / 2))) :=
  ⟨by norm_num, by norm_num,
   rps_c8_uniform_pick (1 / 2) (by norm_num) (by norm_num)⟩

/-- C10: for every draw r in [0, 1) the index floor(3r) is within the
bounds of CHOICES, the pick is a non-null choice, and consequently the
result the reveal computes from a non-null player choice is never
null. -/
theorem rps_c10_pick_in_bounds (r : ℚ) (h0 : 0 ≤ r) (h1 : r < 1) :
    compIndex r < 3
    ∧ (opponentPick r).isSome
    ∧ ∀ p : Choice, (getResult (some p) (opponentPick r)).isSome := by
  have hlt := compIndex_lt_three r h0 h1
  obtain ⟨c, hc⟩ : ∃ c : Choice, opponentPick r = some c := by
    unfold opponentPick
    obtain h | h | h : compIndex r = 0 ∨ compIndex r = 1 ∨ compIndex r = 2 := by omega
    · exact ⟨.rock, by rw [h]; rfl⟩
    · exact ⟨.paper, by rw [h]; rfl⟩
    · exact ⟨.scissors, by rw [h]; rfl⟩
  refine ⟨hlt, by rw [hc]; rfl, fun p => ?_⟩
  rw [hc]
  exact getResult_some_isSome p c

/-- Witness for C10 at the concrete draw r = 1/2. -/
theorem rps_c10_pick_in_bounds_witness :
    (0 : ℚ) ≤ 1 / 2 ∧ (1 : ℚ) / 2 < 1
    ∧ (compIndex (1 / 2) < 3
       ∧ (opponentPick (1 / 2)).isSome
       ∧ ∀ p : Choice, (getResult (some p) (opponentPick (1 / 2))).isSome) :=
  ⟨by norm_num, by norm_num,
   rps_c10_pick_in_bounds (1 / 2) (by norm_num) (by norm_num)⟩

/-- One particle of VictoryParticles: a position and a velocity, three
components each.  Coordinates are rationals standing for the JavaScript
floats of the Float32Array buffers. -/
structure Particle where
  x : ℚ
  y : ℚ
  z : ℚ
  vx : ℚ
  vy : ℚ
  vz : ℚ
deriving DecidableEq, Repr

/-- App.tsx lines 261-269: the per-particle body of the frame loop.  The
velocity is added componentwise to the position; when the new height
passes the ceiling 6 the height is set to -1 and the horizontal
coordinates are resampled as (random - 0.5) * 10 from the two
Math.random draws rx, rz.  Velocities are never changed. -/
def updateParticle (p : Particle) (rx rz : ℚ) : Particle :=
  let x := p.x + p.vx
  let y := p.y + p.vy
  let z := p.z + p.vz
  if y > 6 then
    { p with x := (rx - 1 / 2) * 10, y := -1, z := (rz - 1 / 2) * 10 }
  else
    { p with x := x, y := y, z := z }

/-- App.tsx line 399: the particle system receives active exactly when
the result is win. -/
def victoryActive (result : Option Result) : Bool :=
  decide (result = some Result.win)

/-- App.tsx lines 257-273: one frame of the particle system.  The whole
update is guarded by active; rands supplies the two respawn draws used
by particle i when it wraps. -/
def frameUpdate (active : Bool) (ps : List Particle) (rands : Nat → ℚ × ℚ) :
    List Particle :=
  if active then
    ps.mapIdx (fun i p => updateParticle p (rands i).1 (rands i).2)
  else ps

/-- A concrete particle at height 6 rising by 1 per frame, used by the
C9 counterexample and witness. -/
def particle0 : Particle :=
  { x := 0, y := 6, z := 0, vx := 0, vy := 1, vz := 0 }

/-- Constant respawn draws used by the C9 witness. -/
def randsConst : Nat → ℚ × ℚ := fun _ => (9 / 10, 1 / 2)

/-- C9 counterexample: particle0 passes the ceiling this frame
(6 + 1 > 6), and with respawn draws 9/10 and 1/2 the update moves it to
(4, -1, 0), which is not the origin: the wrap sets the height to -1 and
resamples the horizontal coordinates (App.tsx lines 265-268), it does
not return the position to the origin. -/
theorem rps_c9_particles_cex :
    particle0.y + particle0.vy > 6
    ∧ (updateParticle particle0 (9 / 10) (1 / 2)).x = 4
    ∧ (updateParticle particle0 (9 / 10) (1 / 2)).y = -1
    ∧ (updateParticle particle0 (9 / 10) (1 / 2)).z = 0
    ∧ ¬((updateParticle particle0 (9 / 10) (1 / 2)).x = 0
        ∧ (updateParticle particle0 (9 / 10) (1 / 2)).y = 0
        ∧ (updateParticle particle0 (9 / 10) (1 / 2)).z = 0) := by
  refine ⟨by norm_num [particle0], ?_, ?_, ?_, ?_⟩ <;>
    norm_num [updateParticle, particle0]

/-- C9 (amended): the frame update is a no-op unless the result is win;
while the result is win, each frame adds each particle's velocity to its
position, and whenever the new height passes the ceiling 6 the particle
wraps to the bottom: its height is reset to -1 and its horizontal
coordinates are resampled as (random - 0.5) * 10, not returned to the
origin. -/
theorem rps_c9_particles (result : Option Result) (ps : List Particle)
    (rands : Nat → ℚ × ℚ) (p : Particle) (rx rz : ℚ)
    (hres : result ≠ some Result.win) :
    frameUpdate (victoryActive result) ps rands = ps
    ∧ frameUpdate true ps rands
        = ps.mapIdx (fun i q => updateParticle q (rands i).1 (rands i).2)
    ∧ (p.y + p.vy ≤ 6 →
        updateParticle p rx rz
          = { p with x := p.x + p.vx, y := p.y + p.vy, z := p.z + p.vz })
    ∧ (p.y + p.vy > 6 →
        updateParticle p rx rz
          = { p with x := (rx - 1 / 2) * 10, y := -1, z := (rz - 1 / 2) * 10 }) := by
  refine ⟨?_, rfl, ?_, ?_⟩
  · unfold frameUpdate victoryActive
    rw [decide_eq_false hres]
    rfl
  · intro h
    unfold updateParticle
    rw [if_neg (not_lt.mpr h)]
  · intro h
    unfold updateParticle
    rw [if_pos h]

/-- Witness for the amended C9: a lose result leaves the buffer alone,
and particle0 wraps to the bottom under the draws of randsConst. -/
theorem rps_c9_particles_witness :
    some Result.lose ≠ some Result.win
    ∧ (frameUpdate (victoryActive (some .lose)) [particle0] randsConst = [particle0]
       ∧ frameUpdate true [particle0] randsConst
           = [particle0].mapIdx
               (fun i q => updateParticle q (randsConst i).1 (randsConst i).2)
       ∧ (particle0.y + particle0.vy ≤ 6 →
           updateParticle particle0 (9 / 10) (1 / 2)
             = { particle0 with
                  x := particle0.x + particle0.vx
                  y := particle0.y + particle0.vy
                  z := particle0.z + particle0.vz })
       ∧ (particle0.y + particle0.vy > 6 →
           updateParticle particle0 (9 / 10) (1 / 2)
             = { particle0 with
                  x := (9 / 10 - 1 / 2) * 10
                  y := -1
                  z := (1 / 2 - 1 / 2) * 10 })) :=
  ⟨by decide,
   rps_c9_particles (some .lose) [particle0] randsConst particle0 (9 / 10) (1 / 2)
     (by decide)⟩

end RPS
